import Mathlib

/-!
Shallow embedding of the BigDL repository fragments under verification:

* `src/python/nano/src/bigdl/nano/tf/keras/inference/optimizer.py`
  (`TFAccelerationOption.optimize`, `InferenceOptimizer.ALL_INFERENCE_ACCELERATION_METHOD`,
  `InferenceOptimizer.optimize`),
* `src/python/orca/src/bigdl/orca/learn/tf2/estimator.py` (`Estimator.from_keras`),
* `src/pyspark/dl/dataset/imagenet.py` (`read_local`),
* `src/pyspark/bigdl/models/ml_pipeline/dl_classifier_lenet.py` (`get_mnist`).

External frameworks (ONNX Runtime, OpenVINO, Intel Neural Compressor, the
latency/accuracy helpers, the wall clock) are modelled as oracles collected in
an `Env` structure: each oracle is an arbitrary function returning `Except`,
so the embedding quantifies over every possible behaviour of the external
calls, including raised exceptions (`Except.error`).
-/

namespace BigDL

/-- Opaque handle for a (possibly accelerated) model object. -/
abbrev ModelRef := Nat

/-- Modelled from the spec: the `AccelerationOption` base class lives in
`bigdl.nano.utils.inference.common.utils`, which is not under `src/`; only its
TF subclass and the registration table are.  Per the spec's glossary
("Quantization: reducing numeric precision of a trained model") and the
registration names (`openvino_fp32`, `onnxruntime_int8_qlinear`, ...), an
option's precision is `"int8"` exactly when it is a quantization option
(`inc` for Intel Neural Compressor, `pot` for OpenVINO POT) and `"fp32"`
otherwise, and its accelerator is the external runtime it flags
(`onnxruntime` or `openvino`), `none` meaning the native Keras backend. -/
structure AccelerationOption where
  inc : Bool := false
  openvino : Bool := false
  pot : Bool := false
  onnxruntime : Bool := false
  method : Option String := none
deriving DecidableEq, Repr

def AccelerationOption.get_precision (o : AccelerationOption) : String :=
  if o.inc || o.pot then "int8" else "fp32"

def AccelerationOption.get_accelerator (o : AccelerationOption) : Option String :=
  if o.onnxruntime then some "onnxruntime"
  else if o.openvino then some "openvino"
  else none

/-- Oracles standing for everything outside the optimizer loop: the model
handle, the success of the baseline forward pass, the measured baseline time,
and the external conversion / measurement calls.  `Except.error s` models a
Python exception with message `s`. -/
structure Env where
  /-- Handle of the (Nano-wrapped) input Keras model. -/
  model : ModelRef
  /-- Whether the baseline forward pass `model(input_sample)` succeeds. -/
  forwardOk : Bool
  /-- Wall-clock seconds measured for the baseline forward pass. -/
  baselineTime : ℚ
  /-- Oracle for `InferenceOptimizer.trace` at a given accelerator string: builds a
  `KerasOpenVINOModel` / `KerasONNXRuntimeModel` (external code). -/
  trace : String → Except String ModelRef
  /-- Oracle for `InferenceOptimizer.quantize` applied to (accelerator, method,
  sample_size): Intel Neural Compressor / OpenVINO POT (external code). -/
  quantize : Option String → Option String → Nat → Except String ModelRef
  /-- Oracle for `throughput_calculate_helper latency_sample_num baseline_time func_test
  acce_model input_sample` (helper not under `src/`): returns the average
  latency and an early-stop flag, or raises. -/
  throughput : Nat → ModelRef → Except String (ℚ × Bool)
  /-- Oracle for `_accuracy_calculate_helper model metric batched_validation_data`:
  returns the metric value or raises. -/
  accuracy : ModelRef → Except String ℚ
  /-- Dependency availability of each acceleration method, as reported by
  `available_acceleration_combination` (checker not under `src/`). -/
  depOk : String → Bool

/-- Embeds `TFAccelerationOption.optimize` (optimizer.py lines 36-63): fp32 options
with no accelerator return the model unchanged; fp32 options with an
accelerator call `InferenceOptimizer.trace`; quantization options call
`InferenceOptimizer.quantize` with the option's method and the POT sample
size. -/
def optionOptimize (env : Env) (o : AccelerationOption)
    (sample_size_for_pot : Nat) : Except String ModelRef :=
  if o.get_precision = "fp32" then
    match o.get_accelerator with
    | none => .ok env.model
    | some acc => env.trace acc
  else
    env.quantize o.get_accelerator o.method sample_size_for_pot

/-- Embeds `InferenceOptimizer.ALL_INFERENCE_ACCELERATION_METHOD` (optimizer.py
lines 70-81), in registration order. -/
def ALL_INFERENCE_ACCELERATION_METHOD : List (String × AccelerationOption) :=
  [("original", {}),
   ("int8", { inc := true }),
   ("openvino_fp32", { openvino := true }),
   ("openvino_int8", { openvino := true, pot := true }),
   ("onnxruntime_fp32", { onnxruntime := true }),
   ("onnxruntime_int8_qlinear", { onnxruntime := true, inc := true, method := some "qlinear" }),
   ("onnxruntime_int8_integer", { onnxruntime := true, inc := true, method := some "integer" })]

/-- Modelled from the spec: `available_acceleration_combination` lives in
`bigdl.nano.utils.inference.common.checker`, not under `src/`.  Per the
docstring of `InferenceOptimizer.optimize` (which is under `src/`):
`includes = None` means all methods, `"original"` is automatically added to
`includes`, and `"original"` is ignored in `excludes`.  Whether a selected
method is in the returned dict with value `True` depends on its installed
dependencies (`depOk`).  Iteration order follows the registration order of
`full_methods`. -/
def selectedMethod (includes excludes : Option (List String)) (m : String) : Bool :=
  (match includes with
   | none => true
   | some inc => m ∈ inc || m = "original") &&
  !(match excludes with
    | none => false
    | some exc => m ∈ exc && m ≠ "original")

/-- Modelled from the spec: see `selectedMethod`.  Returns the candidate
methods in registration order, each with its option and dependency
availability. -/
def available_acceleration_combination (includes excludes : Option (List String))
    (depOk : String → Bool) (full : List (String × AccelerationOption)) :
    List (String × AccelerationOption × Bool) :=
  (full.filter (fun p => selectedMethod includes excludes p.1)).map
    (fun p => (p.1, p.2, depOk p.1))

/-- Value of the `"accuracy"` field in a result-map entry: a computed metric
value, the literal string `"not recomputed"`, or Python `None`. -/
inductive AccVal where
  | value (a : ℚ)
  | notRecomputed
  | noneVal
deriving DecidableEq, Repr

/-- One entry of `result_map`: a Python dict whose keys `"latency"`,
`"accuracy"` and `"model"` may be absent (`Option.none`). -/
structure Entry where
  status : String
  latency : Option ℚ := none
  accuracy : Option AccVal := none
  model : Option ModelRef := none
deriving DecidableEq, Repr

/-- An exception the loop lets propagate out of `optimize`: the accuracy
helper raised while measuring a non-`"original"` quantized method. -/
structure LoopErr where
  method : String
  msg : String
deriving DecidableEq, Repr

/-- Body of one iteration of the enumeration loop (optimizer.py lines
202-265), also threading the mutable `self._calculate_accuracy` flag.
Follows the Python control flow exactly: `continue` after
`"lack dependency"` / `"fail to convert"` / `"early stopped"` /
`"fail to forward"`; the early-stop branch skips `"original"`; the accuracy
phase writes `"not recomputed"` for fp32 non-original methods, disables
accuracy calculation when the helper raises on `"original"`, and lets the
exception propagate when it raises on any other method. -/
def processMethod (env : Env) (latency_sample_num sample_size_for_pot : Nat)
    (calcAcc : Bool) (method : String) (opt : AccelerationOption)
    (available : Bool) : Except LoopErr (Entry × Bool) :=
  if !available then
    .ok ({ status := "lack dependency" }, calcAcc)
  else
    match optionOptimize env opt sample_size_for_pot with
    | .error _ => .ok ({ status := "fail to convert" }, calcAcc)
    | .ok acce_model =>
      match env.throughput latency_sample_num acce_model with
      | .error _ => .ok ({ status := "fail to forward" }, calcAcc)
      | .ok (lat, st) =>
        if st = false && method ≠ "original" then
          .ok ({ status := "early stopped", latency := some lat }, calcAcc)
        else
          if calcAcc then
            if opt.get_precision = "fp32" && method ≠ "original" then
              .ok ({ status := "successful", latency := some lat,
                     accuracy := some .notRecomputed, model := some acce_model }, calcAcc)
            else if method = "original" then
              match env.accuracy acce_model with
              | .ok a =>
                .ok ({ status := "successful", latency := some lat,
                       accuracy := some (.value a), model := some acce_model }, calcAcc)
              | .error _ =>
                .ok ({ status := "successful", latency := some lat,
                       accuracy := none, model := some acce_model }, false)
            else
              match env.accuracy acce_model with
              | .ok a =>
                .ok ({ status := "successful", latency := some lat,
                       accuracy := some (.value a), model := some acce_model }, calcAcc)
              | .error e => .error ⟨method, e⟩
          else
            .ok ({ status := "successful", latency := some lat,
                   accuracy := some .noneVal, model := some acce_model }, calcAcc)

/-- The enumeration loop over `available_dict.items()` (optimizer.py lines
202-265), accumulating `result_map` in iteration order. -/
def runLoop (env : Env) (latency_sample_num sample_size_for_pot : Nat) :
    Bool → List (String × AccelerationOption × Bool) →
    Except LoopErr (List (String × Entry))
  | _, [] => .ok []
  | calcAcc, (m, opt, avail) :: rest =>
    match processMethod env latency_sample_num sample_size_for_pot calcAcc m opt avail with
    | .error e => .error e
    | .ok (entry, calcAcc') =>
      match runLoop env latency_sample_num sample_size_for_pot calcAcc' rest with
      | .error e => .error e
      | .ok restRes => .ok ((m, entry) :: restRes)

/-- How `optimize` can fail: an `invalidInputError` raised during argument
validation or the baseline forward test, or an exception propagated out of
the enumeration loop. -/
inductive OptError where
  | invalidInput (msg : String)
  | propagated (e : LoopErr)
deriving DecidableEq, Repr

/-- Arguments of `InferenceOptimizer.optimize` that steer the control flow
under verification; defaults match the Python signature. -/
structure OptimizeArgs where
  modelIsKeras : Bool := true
  direction : String := "max"
  yProvided : Bool := true
  xIsDataset : Bool := false
  validationDataProvided : Bool := false
  metricProvided : Bool := false
  latency_sample_num : Nat := 100
  includes : Option (List String) := none
  excludes : Option (List String) := none
deriving Repr

/-- POT calibration sample size chosen from the baseline forward time
(optimizer.py lines 195-198). -/
def sampleSizeForPot (baseline_time : ℚ) : Nat :=
  if baseline_time > 1 / 10 then 15 else 100

/-- The candidate-method dictionary `optimize` enumerates, as built from the
`includes` / `excludes` arguments and the installed dependencies. -/
def availDict (env : Env) (args : OptimizeArgs) :
    List (String × AccelerationOption × Bool) :=
  available_acceleration_combination args.includes args.excludes env.depOk
    ALL_INFERENCE_ACCELERATION_METHOD

/-- Embeds `InferenceOptimizer.optimize` (optimizer.py lines 83-277): argument
validation, the baseline forward test, POT sample-size selection, and the
enumeration loop; returns `result_map` (the value stored into
`self.optimized_model_dict`), or the exception that propagated. -/
def optimize (env : Env) (args : OptimizeArgs) :
    Except OptError (List (String × Entry)) :=
  if ¬args.modelIsKeras then
    .error (.invalidInput "model should be a Keras Model.")
  else if ¬(args.direction = "min" ∨ args.direction = "max") then
    .error (.invalidInput "Only support direction 'min', 'max'.")
  else if ¬(args.yProvided ∨ args.xIsDataset) then
    .error (.invalidInput "y can be omitted only when x is a Dataset")
  else if ¬env.forwardOk then
    .error (.invalidInput "x is incompatible with your model input.")
  else
    match runLoop env args.latency_sample_num (sampleSizeForPot env.baselineTime)
        (args.validationDataProvided && args.metricProvided) (availDict env args) with
    | .error e => .error (.propagated e)
    | .ok res => .ok res

/-- The estimator object `Estimator.from_keras` returns
(estimator.py lines 54-65): a `TensorFlow2Estimator` (ray backend) carrying
its backend string, or a `SparkTFEstimator`. -/
inductive EstimatorKind where
  | tensorflow2 (backend : String)
  | sparkTF
deriving DecidableEq, Repr

/-- Embeds `Estimator.from_keras` (estimator.py lines 26-68), dispatching on the
`backend` string; every unrecognised string raises a `ValueError`. -/
def from_keras (backend : String) : Except String EstimatorKind :=
  if backend = "tf2" ∨ backend = "horovod" then
    .ok (.tensorflow2 backend)
  else if backend = "spark" then
    .ok .sparkTF
  else
    .error ("Only horovod, tf2 and spark backends are supported" ++
      " for now, got backend: " ++ backend)

/-- A `(features, label)` pair as built by `Sample.from_ndarray`; features are
kept abstract (type parameter), labels are the numeric class targets. -/
structure Sample (α : Type) where
  features : α
  label : Nat
deriving DecidableEq, Repr

/-- Python's `dirs.sort()` on directory names: ascending comparison sort
(insertion sort; any comparison sort agrees). -/
def sortStrings (l : List String) : List String := l.insertionSort (· ≤ ·)

/-- Python's `list.index`: index of the first occurrence (the Python call
raises on a missing element; `read_local` only queries present elements, so
the total variant returning `length` on a miss is never taken there). -/
def indexOfStr (s : String) : List String → Nat
  | [] => 0
  | t :: ts => if t = s then 0 else indexOfStr s ts + 1

/-- Embeds `read_local` (imagenet.py lines 27-52): a folder is a listing of
subdirectories, each with its image files; the directory names are sorted,
and each file found under directory `d` becomes the pair
`(path, dirs.index(d) + 1)`.  The subsequent RDD maps (imread, resize,
`& 0xff / normalize`, `Sample.from_ndarray`) are abstracted into `proc`,
which turns a `(dir, file)` path into the processed feature array. -/
def read_local {α : Type} (folder : List (String × List String))
    (proc : String × String → α) : List (Sample α) :=
  let dirs := sortStrings (folder.map Prod.fst)
  (dirs.flatMap (fun d =>
    ((folder.lookup d).getD []).map (fun f => ((d, f), indexOfStr d dirs + 1)))).map
    (fun pl => { features := proc pl.1, label := pl.2 })

/-- Embeds `get_mnist` (dl_classifier_lenet.py lines 46-64): zips the image and
label collections and maps each pair to
`Sample.from_ndarray(features, label + 1)` ("Target start from 1 in
BigDL"). -/
def get_mnist {α : Type} (images : List α) (labels : List Nat) : List (Sample α) :=
  (images.zip labels).map (fun fl => { features := fl.1, label := fl.2 + 1 })

/-- A concrete environment in which every external call succeeds: used to
instantiate the universally quantified theorems at explicit inputs. -/
def envAllOk : Env where
  model := 7
  forwardOk := true
  baselineTime := 1 / 20
  trace := fun _ => .ok 8
  quantize := fun _ _ _ => .ok 9
  throughput := fun _ _ => .ok (2, true)
  accuracy := fun _ => .ok (9 / 10)
  depOk := fun _ => true

/-- Like `envAllOk`, except that the accuracy helper (the metric computation)
raises on every model. -/
def envAccBoom : Env :=
  { envAllOk with accuracy := fun _ => .error "metric failed" }

/-- Concrete arguments supplying both `validation_data` and `metric`. -/
def argsWithMetric : OptimizeArgs :=
  { validationDataProvided := true, metricProvided := true }

/-- Like `envAllOk`, except that every `trace` call (OpenVINO / ONNX Runtime model
conversion) raises. -/
def envTraceBoom : Env :=
  { envAllOk with trace := fun _ => .error "onnx missing" }

/-- Like `envAllOk`, except that the latency helper reports the early-stop flag
(`status = False`) for every model. -/
def envEarly : Env :=
  { envAllOk with throughput := fun _ _ => .ok (2, false) }

/-- Like `envAllOk`, except that the baseline forward pass fails. -/
def envForwardBad : Env :=
  { envAllOk with forwardOk := false }

/-- The result map `optimize envAllOk {}` produces. -/
def resAllOk : List (String × Entry) :=
  [("original", { status := "successful", latency := some 2,
                  accuracy := some .noneVal, model := some 7 }),
   ("int8", { status := "successful", latency := some 2,
              accuracy := some .noneVal, model := some 9 }),
   ("openvino_fp32", { status := "successful", latency := some 2,
                       accuracy := some .noneVal, model := some 8 }),
   ("openvino_int8", { status := "successful", latency := some 2,
                       accuracy := some .noneVal, model := some 9 }),
   ("onnxruntime_fp32", { status := "successful", latency := some 2,
                          accuracy := some .noneVal, model := some 8 }),
   ("onnxruntime_int8_qlinear", { status := "successful", latency := some 2,
                                  accuracy := some .noneVal, model := some 9 }),
   ("onnxruntime_int8_integer", { status := "successful", latency := some 2,
                                  accuracy := some .noneVal, model := some 9 })]

/-- The result map `optimize envAllOk argsWithMetric` produces. -/
def resAllOkVM : List (String × Entry) :=
  [("original", { status := "successful", latency := some 2,
                  accuracy := some (.value (9 / 10)), model := some 7 }),
   ("int8", { status := "successful", latency := some 2,
              accuracy := some (.value (9 / 10)), model := some 9 }),
   ("openvino_fp32", { status := "successful", latency := some 2,
                       accuracy := some .notRecomputed, model := some 8 }),
   ("openvino_int8", { status := "successful", latency := some 2,
                       accuracy := some (.value (9 / 10)), model := some 9 }),
   ("onnxruntime_fp32", { status := "successful", latency := some 2,
                          accuracy := some .notRecomputed, model := some 8 }),
   ("onnxruntime_int8_qlinear", { status := "successful", latency := some 2,
                                  accuracy := some (.value (9 / 10)), model := some 9 }),
   ("onnxruntime_int8_integer", { status := "successful", latency := some 2,
                                  accuracy := some (.value (9 / 10)), model := some 9 })]

/-- The result map `optimize envTraceBoom {}` produces. -/
def resTraceBoom : List (String × Entry) :=
  [("original", { status := "successful", latency := some 2,
                  accuracy := some .noneVal, model := some 7 }),
   ("int8", { status := "successful", latency := some 2,
              accuracy := some .noneVal, model := some 9 }),
   ("openvino_fp32", { status := "fail to convert" }),
   ("openvino_int8", { status := "successful", latency := some 2,
                       accuracy := some .noneVal, model := some 9 }),
   ("onnxruntime_fp32", { status := "fail to convert" }),
   ("onnxruntime_int8_qlinear", { status := "successful", latency := some 2,
                                  accuracy := some .noneVal, model := some 9 }),
   ("onnxruntime_int8_integer", { status := "successful", latency := some 2,
                                  accuracy := some .noneVal, model := some 9 })]

/-- The result map `optimize envEarly {}` produces: everything but
`"original"` is early-stopped. -/
def resEarly : List (String × Entry) :=
  [("original", { status := "successful", latency := some 2,
                  accuracy := some .noneVal, model := some 7 }),
   ("int8", { status := "early stopped", latency := some 2 }),
   ("openvino_fp32", { status := "early stopped", latency := some 2 }),
   ("openvino_int8", { status := "early stopped", latency := some 2 }),
   ("onnxruntime_fp32", { status := "early stopped", latency := some 2 }),
   ("onnxruntime_int8_qlinear", { status := "early stopped", latency := some 2 }),
   ("onnxruntime_int8_integer", { status := "early stopped", latency := some 2 })]

/-! ### Helper lemmas about one loop iteration -/

theorem processMethod_ok_cases {env : Env} {l s : Nat} {c : Bool} {m : String}
    {opt : AccelerationOption} {avail : Bool} {e : Entry} {c' : Bool}
    (h : processMethod env l s c m opt avail = .ok (e, c')) :
    (e.status = "lack dependency" ∨ e.status = "fail to convert" ∨
     e.status = "successful" ∨ e.status = "early stopped" ∨
     e.status = "fail to forward") ∧ (e.model.isSome → e.status = "successful") := by
  unfold processMethod at h
  split at h
  · cases h; simp
  · cases hconv : optionOptimize env opt s with
    | error er => rw [hconv] at h; dsimp only at h; cases h; simp
    | ok am =>
      rw [hconv] at h; dsimp only at h
      cases hthr : env.throughput l am with
      | error er => rw [hthr] at h; dsimp only at h; cases h; simp
      | ok p =>
        rw [hthr] at h; dsimp only at h
        obtain ⟨lat, st⟩ := p
        split at h
        · cases h; simp
        · split at h
          · split at h
            · cases h; simp
            · split at h
              · cases hacc : env.accuracy am <;> rw [hacc] at h <;> dsimp only at h <;>
                  cases h <;> simp
              · cases hacc : env.accuracy am <;> rw [hacc] at h <;> dsimp only at h
                · cases h
                · cases h; simp
          · cases h; simp

theorem processMethod_convert_error {env : Env} {l s : Nat} {c : Bool} {m : String}
    {opt : AccelerationOption} {er : String}
    (hconv : optionOptimize env opt s = .error er) :
    processMethod env l s c m opt true = .ok ({ status := "fail to convert" }, c) := by
  simp [processMethod, hconv]

theorem processMethod_error_accuracy {env : Env} {l s : Nat} {c : Bool} {m : String}
    {opt : AccelerationOption} {avail : Bool} {le : LoopErr}
    (h : processMethod env l s c m opt avail = .error le) :
    ∃ mdl, env.accuracy mdl = .error le.msg := by
  unfold processMethod at h
  split at h
  · cases h
  · cases hconv : optionOptimize env opt s with
    | error er => rw [hconv] at h; dsimp only at h; cases h
    | ok am =>
      rw [hconv] at h; dsimp only at h
      cases hthr : env.throughput l am with
      | error er => rw [hthr] at h; dsimp only at h; cases h
      | ok p =>
        rw [hthr] at h; dsimp only at h
        obtain ⟨lat, st⟩ := p
        split at h
        · cases h
        · split at h
          · split at h
            · cases h
            · split at h
              · cases hacc : env.accuracy am <;> rw [hacc] at h <;> dsimp only at h <;> cases h
              · cases hacc : env.accuracy am <;> rw [hacc] at h <;> dsimp only at h
                · cases h
                  exact ⟨am, hacc⟩
                · cases h
          · cases h

theorem processMethod_false {env : Env} {l s : Nat} {m : String}
    {opt : AccelerationOption} {avail : Bool} {e : Entry} {c' : Bool}
    (h : processMethod env l s false m opt avail = .ok (e, c')) :
    c' = false ∧ (e.status = "successful" → e.accuracy = some .noneVal) := by
  unfold processMethod at h
  split at h
  · cases h; simp
  · cases hconv : optionOptimize env opt s with
    | error er => rw [hconv] at h; dsimp only at h; cases h; simp
    | ok am =>
      rw [hconv] at h; dsimp only at h
      cases hthr : env.throughput l am with
      | error er => rw [hthr] at h; dsimp only at h; cases h; simp
      | ok p =>
        rw [hthr] at h; dsimp only at h
        obtain ⟨lat, st⟩ := p
        split at h
        · cases h; simp
        · cases h; simp

theorem processMethod_noflip {env : Env} {l s : Nat} {c : Bool} {m : String}
    {opt : AccelerationOption} {avail : Bool} {e : Entry} {c' : Bool}
    (hacc : ∀ mdl, (env.accuracy mdl).isOk)
    (h : processMethod env l s c m opt avail = .ok (e, c')) : c' = c := by
  unfold processMethod at h
  split at h
  · cases h; rfl
  · cases hconv : optionOptimize env opt s with
    | error er => rw [hconv] at h; dsimp only at h; cases h; rfl
    | ok am =>
      rw [hconv] at h; dsimp only at h
      cases hthr : env.throughput l am with
      | error er => rw [hthr] at h; dsimp only at h; cases h; rfl
      | ok p =>
        rw [hthr] at h; dsimp only at h
        obtain ⟨lat, st⟩ := p
        split at h
        · cases h; rfl
        · split at h
          · split at h
            · cases h; rfl
            · split at h
              · cases ha : env.accuracy am with
                | ok a => rw [ha] at h; dsimp only at h; cases h; rfl
                | error er => have := hacc am; rw [ha] at this; cases this
              · cases ha : env.accuracy am with
                | ok a => rw [ha] at h; dsimp only at h; cases h; rfl
                | error er => have := hacc am; rw [ha] at this; cases this
          · cases h; rfl

theorem processMethod_true_successful {env : Env} {l s : Nat} {m : String}
    {opt : AccelerationOption} {avail : Bool} {e : Entry} {c' : Bool}
    (hacc : ∀ mdl, (env.accuracy mdl).isOk)
    (h : processMethod env l s true m opt avail = .ok (e, c'))
    (hs : e.status = "successful") :
    (opt.get_precision = "fp32" ∧ m ≠ "original" → e.accuracy = some .notRecomputed) ∧
    (¬(opt.get_precision = "fp32" ∧ m ≠ "original") →
      ∃ a, e.accuracy = some (.value a)) := by
  unfold processMethod at h
  split at h
  · cases h; simp at hs
  · cases hconv : optionOptimize env opt s with
    | error er => rw [hconv] at h; dsimp only at h; cases h; simp at hs
    | ok am =>
      rw [hconv] at h; dsimp only at h
      cases hthr : env.throughput l am with
      | error er => rw [hthr] at h; dsimp only at h; cases h; simp at hs
      | ok p =>
        rw [hthr] at h; dsimp only at h
        obtain ⟨lat, st⟩ := p
        split at h
        · cases h; simp at hs
        · split at h
          · split at h
            · rename_i hfp
              rw [Bool.and_eq_true, decide_eq_true_eq, decide_eq_true_eq] at hfp
              cases h
              exact ⟨fun _ => rfl, fun hcontra => absurd hfp hcontra⟩
            · rename_i hnfp
              rw [Bool.and_eq_true, decide_eq_true_eq, decide_eq_true_eq] at hnfp
              split at h
              · cases ha : env.accuracy am with
                | ok a =>
                  rw [ha] at h; dsimp only at h; cases h
                  exact ⟨fun hx => absurd hx hnfp, fun _ => ⟨a, rfl⟩⟩
                | error er => have := hacc am; rw [ha] at this; cases this
              · cases ha : env.accuracy am with
                | ok a =>
                  rw [ha] at h; dsimp only at h; cases h
                  exact ⟨fun hx => absurd hx hnfp, fun _ => ⟨a, rfl⟩⟩
                | error er => have := hacc am; rw [ha] at this; cases this
          · rename_i hc
            exact absurd rfl hc

theorem processMethod_latency {env : Env} {l s : Nat} {c : Bool} {m : String}
    {opt : AccelerationOption} {am : ModelRef} {lat : ℚ} {st : Bool} {e : Entry} {c' : Bool}
    (hconv : optionOptimize env opt s = .ok am)
    (hthr : env.throughput l am = .ok (lat, st))
    (h : processMethod env l s c m opt true = .ok (e, c')) :
    e.latency = some lat := by
  unfold processMethod at h
  split at h
  · rename_i hav; exact absurd hav (by decide)
  · rw [hconv] at h; dsimp only at h
    rw [hthr] at h; dsimp only at h
    split at h
    · cases h; rfl
    · split at h
      · split at h
        · cases h; rfl
        · split at h
          · cases ha : env.accuracy am <;> rw [ha] at h <;> dsimp only at h <;>
              cases h <;> rfl
          · cases ha : env.accuracy am <;> rw [ha] at h <;> dsimp only at h
            · cases h
            · cases h; rfl
      · cases h; rfl

theorem processMethod_success {env : Env} {l s : Nat} {c : Bool} {m : String}
    {opt : AccelerationOption} {am : ModelRef} {lat : ℚ} {st : Bool} {e : Entry} {c' : Bool}
    (hconv : optionOptimize env opt s = .ok am)
    (hthr : env.throughput l am = .ok (lat, st))
    (hst : st = true ∨ m = "original")
    (h : processMethod env l s c m opt true = .ok (e, c')) :
    e.status = "successful" ∧ e.model = some am ∧ e.latency = some lat := by
  unfold processMethod at h
  split at h
  · rename_i hav; exact absurd hav (by decide)
  · rw [hconv] at h; dsimp only at h
    rw [hthr] at h; dsimp only at h
    split at h
    · rename_i hes
      rw [Bool.and_eq_true, decide_eq_true_eq, decide_eq_true_eq] at hes
      rcases hst with hst | hst
      · rw [hst] at hes; cases hes.1
      · exact absurd hst hes.2
    · split at h
      · split at h
        · cases h; exact ⟨rfl, rfl, rfl⟩
        · split at h
          · cases ha : env.accuracy am <;> rw [ha] at h <;> dsimp only at h <;>
              cases h <;> exact ⟨rfl, rfl, rfl⟩
          · cases ha : env.accuracy am <;> rw [ha] at h <;> dsimp only at h
            · cases h
            · cases h; exact ⟨rfl, rfl, rfl⟩
      · cases h; exact ⟨rfl, rfl, rfl⟩

/-! ### Helper lemmas about the whole enumeration loop -/

theorem runLoop_keys {env : Env} {l s : Nat}
    {methods : List (String × AccelerationOption × Bool)} {c : Bool}
    {res : List (String × Entry)} (h : runLoop env l s c methods = .ok res) :
    res.map Prod.fst = methods.map (fun x => x.1) := by
  induction methods generalizing c res with
  | nil => cases h; rfl
  | cons head rest ih =>
    obtain ⟨m, opt, avail⟩ := head
    unfold runLoop at h
    cases hp : processMethod env l s c m opt avail with
    | error e => rw [hp] at h; cases h
    | ok p =>
      rw [hp] at h; dsimp only at h
      obtain ⟨entry, c1⟩ := p
      cases hr : runLoop env l s c1 rest with
      | error e => rw [hr] at h; cases h
      | ok restRes =>
        rw [hr] at h; dsimp only at h
        cases h
        simpa using ih hr

theorem runLoop_error_accuracy {env : Env} {l s : Nat}
    {methods : List (String × AccelerationOption × Bool)} {c : Bool}
    {le : LoopErr} (h : runLoop env l s c methods = .error le) :
    ∃ mdl, env.accuracy mdl = .error le.msg := by
  induction methods generalizing c with
  | nil => cases h
  | cons head rest ih =>
    obtain ⟨m, opt, avail⟩ := head
    unfold runLoop at h
    cases hp : processMethod env l s c m opt avail with
    | error e =>
      rw [hp] at h; dsimp only at h; cases h
      exact processMethod_error_accuracy hp
    | ok p =>
      rw [hp] at h; dsimp only at h
      obtain ⟨entry, c1⟩ := p
      cases hr : runLoop env l s c1 rest with
      | error e =>
        rw [hr] at h; dsimp only at h; cases h
        exact ih hr
      | ok restRes => rw [hr] at h; dsimp only at h; cases h

theorem runLoop_mem_entry {env : Env} {l s : Nat} {m : String}
    {opt : AccelerationOption} {avail : Bool} {P : Entry → Prop}
    (hP : ∀ c c' e, processMethod env l s c m opt avail = .ok (e, c') → P e)
    {methods : List (String × AccelerationOption × Bool)} {c : Bool}
    {res : List (String × Entry)}
    (hmem : (m, opt, avail) ∈ methods) (h : runLoop env l s c methods = .ok res) :
    ∃ e, (m, e) ∈ res ∧ P e := by
  induction methods generalizing c res with
  | nil => cases hmem
  | cons head rest ih =>
    obtain ⟨m0, opt0, avail0⟩ := head
    unfold runLoop at h
    cases hp : processMethod env l s c m0 opt0 avail0 with
    | error e => rw [hp] at h; cases h
    | ok p =>
      rw [hp] at h; dsimp only at h
      obtain ⟨entry, c1⟩ := p
      cases hr : runLoop env l s c1 rest with
      | error e => rw [hr] at h; cases h
      | ok restRes =>
        rw [hr] at h; dsimp only at h
        cases h
        rcases List.mem_cons.mp hmem with heq | htail
        · obtain ⟨h1, h2⟩ := Prod.ext_iff.mp heq
          obtain ⟨h3, h4⟩ := Prod.ext_iff.mp h2
          dsimp only at h1 h3 h4
          subst h1; subst h3; subst h4
          exact ⟨entry, List.mem_cons_self _ _, hP c c1 entry hp⟩
        · obtain ⟨e, he, hPe⟩ := ih htail hr
          exact ⟨e, List.mem_cons_of_mem _ he, hPe⟩

theorem runLoop_false_accuracy {env : Env} {l s : Nat}
    {methods : List (String × AccelerationOption × Bool)}
    {res : List (String × Entry)}
    (h : runLoop env l s false methods = .ok res) :
    ∀ m e, (m, e) ∈ res → e.status = "successful" → e.accuracy = some .noneVal := by
  induction methods generalizing res with
  | nil => cases h; intro m e he; cases he
  | cons head rest ih =>
    obtain ⟨m0, opt0, avail0⟩ := head
    unfold runLoop at h
    cases hp : processMethod env l s false m0 opt0 avail0 with
    | error e => rw [hp] at h; cases h
    | ok p =>
      rw [hp] at h; dsimp only at h
      obtain ⟨entry, c1⟩ := p
      obtain ⟨hc1, hsucc⟩ := processMethod_false hp
      subst hc1
      cases hr : runLoop env l s false rest with
      | error e => rw [hr] at h; cases h
      | ok restRes =>
        rw [hr] at h; dsimp only at h
        cases h
        intro m e he hst
        rcases List.mem_cons.mp he with heq | htail
        · obtain ⟨h1, h2⟩ := Prod.ext_iff.mp heq
          dsimp only at h1 h2
          subst h2
          exact hsucc hst
        · exact ih hr m e htail hst

theorem runLoop_origin_const {env : Env} {l s : Nat}
    (hacc : ∀ mdl, (env.accuracy mdl).isOk)
    {methods : List (String × AccelerationOption × Bool)} {c : Bool}
    {res : List (String × Entry)}
    (h : runLoop env l s c methods = .ok res) :
    ∀ m e, (m, e) ∈ res → ∃ opt avail c',
      (m, opt, avail) ∈ methods ∧ processMethod env l s c m opt avail = .ok (e, c') := by
  induction methods generalizing res with
  | nil => cases h; intro m e he; cases he
  | cons head rest ih =>
    obtain ⟨m0, opt0, avail0⟩ := head
    unfold runLoop at h
    cases hp : processMethod env l s c m0 opt0 avail0 with
    | error e => rw [hp] at h; cases h
    | ok p =>
      rw [hp] at h; dsimp only at h
      obtain ⟨entry, c1⟩ := p
      have hc1 : c1 = c := processMethod_noflip hacc hp
      cases hr : runLoop env l s c1 rest with
      | error e => rw [hr] at h; cases h
      | ok restRes =>
        rw [hr] at h; dsimp only at h
        cases h
        rw [hc1] at hr
        intro m e he
        rcases List.mem_cons.mp he with heq | htail
        · obtain ⟨h1, h2⟩ := Prod.ext_iff.mp heq
          dsimp only at h1 h2
          subst h1; subst h2
          exact ⟨opt0, avail0, c1, List.mem_cons_self _ _, hp⟩
        · obtain ⟨opt, avail, c', hmem, hpm⟩ := ih hr m e htail
          exact ⟨opt, avail, c', List.mem_cons_of_mem _ hmem, hpm⟩

theorem runLoop_origin {env : Env} {l s : Nat}
    {methods : List (String × AccelerationOption × Bool)} {c : Bool}
    {res : List (String × Entry)}
    (h : runLoop env l s c methods = .ok res) :
    ∀ m e, (m, e) ∈ res → ∃ opt avail cx c',
      (m, opt, avail) ∈ methods ∧ processMethod env l s cx m opt avail = .ok (e, c') := by
  induction methods generalizing c res with
  | nil => cases h; intro m e he; cases he
  | cons head rest ih =>
    obtain ⟨m0, opt0, avail0⟩ := head
    unfold runLoop at h
    cases hp : processMethod env l s c m0 opt0 avail0 with
    | error e => rw [hp] at h; cases h
    | ok p =>
      rw [hp] at h; dsimp only at h
      obtain ⟨entry, c1⟩ := p
      cases hr : runLoop env l s c1 rest with
      | error e => rw [hr] at h; cases h
      | ok restRes =>
        rw [hr] at h; dsimp only at h
        cases h
        intro m e he
        rcases List.mem_cons.mp he with heq | htail
        · obtain ⟨h1, h2⟩ := Prod.ext_iff.mp heq
          dsimp only at h1 h2
          subst h1; subst h2
          exact ⟨opt0, avail0, c, c1, List.mem_cons_self _ _, hp⟩
        · obtain ⟨opt, avail, cx, c', hmem, hpm⟩ := ih hr m e htail
          exact ⟨opt, avail, cx, c', List.mem_cons_of_mem _ hmem, hpm⟩

/-! ### Helper lemmas about the candidate-method dictionary -/

theorem mem_availDict {env : Env} {args : OptimizeArgs} {m : String}
    {opt : AccelerationOption} {avail : Bool}
    (h : (m, opt, avail) ∈ availDict env args) :
    (m, opt) ∈ ALL_INFERENCE_ACCELERATION_METHOD ∧ avail = env.depOk m := by
  unfold availDict available_acceleration_combination at h
  rw [List.mem_map] at h
  obtain ⟨p, hp, heq⟩ := h
  have hmem := List.mem_of_mem_filter hp
  obtain ⟨h1, h2⟩ := Prod.ext_iff.mp heq
  obtain ⟨h3, h4⟩ := Prod.ext_iff.mp h2
  subst h1; subst h3; subst h4
  exact ⟨hmem, rfl⟩

theorem selectedMethod_original (i e : Option (List String)) :
    selectedMethod i e "original" = true := by
  unfold selectedMethod
  cases i <;> cases e <;> simp

theorem original_mem_availDict (env : Env) (args : OptimizeArgs) :
    ("original", ({} : AccelerationOption), env.depOk "original") ∈ availDict env args := by
  unfold availDict available_acceleration_combination
  rw [List.mem_map]
  refine ⟨("original", {}), ?_, rfl⟩
  rw [List.mem_filter]
  exact ⟨by simp [ALL_INFERENCE_ACCELERATION_METHOD], selectedMethod_original _ _⟩

theorem availDict_keys (env : Env) (args : OptimizeArgs) :
    (availDict env args).map (fun x => x.1) =
      (ALL_INFERENCE_ACCELERATION_METHOD.map Prod.fst).filter
        (selectedMethod args.includes args.excludes) := by
  unfold availDict available_acceleration_combination
  induction ALL_INFERENCE_ACCELERATION_METHOD with
  | nil => rfl
  | cons p rest ih =>
    by_cases h : selectedMethod args.includes args.excludes p.1 <;>
      simp [List.filter_cons, h, ih]

/-! ### Helper lemmas about `optimize` -/

theorem optimize_ok_runLoop {env : Env} {args : OptimizeArgs}
    {res : List (String × Entry)} (h : optimize env args = .ok res) :
    runLoop env args.latency_sample_num (sampleSizeForPot env.baselineTime)
      (args.validationDataProvided && args.metricProvided)
      (availDict env args) = .ok res := by
  unfold optimize at h
  split at h
  · cases h
  · split at h
    · cases h
    · split at h
      · cases h
      · split at h
        · cases h
        · cases hr : runLoop env args.latency_sample_num
              (sampleSizeForPot env.baselineTime)
              (args.validationDataProvided && args.metricProvided)
              (availDict env args) with
          | error e => rw [hr] at h; dsimp only at h; cases h
          | ok res' => rw [hr] at h; dsimp only at h; cases h; rfl

theorem optimize_propagated {env : Env} {args : OptimizeArgs} {le : LoopErr}
    (h : optimize env args = .error (.propagated le)) :
    runLoop env args.latency_sample_num (sampleSizeForPot env.baselineTime)
      (args.validationDataProvided && args.metricProvided)
      (availDict env args) = .error le := by
  unfold optimize at h
  split at h
  · cases h
  · split at h
    · cases h
    · split at h
      · cases h
      · split at h
        · cases h
        · cases hr : runLoop env args.latency_sample_num
              (sampleSizeForPot env.baselineTime)
              (args.validationDataProvided && args.metricProvided)
              (availDict env args) with
          | error e => rw [hr] at h; dsimp only at h; cases h; rfl
          | ok res' => rw [hr] at h; dsimp only at h; cases h

/-! ### Claim theorems -/

/-- C1: every candidate method's conversion is attempted inside a try/except
fallback: if `option.optimize` raises, that method's entry gets status
`"fail to convert"` and the enumeration continues with the next method
(the result still has an entry for every candidate); and no conversion
exception propagates out of `optimize` — any exception that does propagate
was raised by the accuracy helper. -/
theorem optimize_conversion_fallback :
    (∀ (env : Env) (args : OptimizeArgs) (res : List (String × Entry))
       (m : String) (opt : AccelerationOption) (er : String),
       optimize env args = .ok res →
       (m, opt, true) ∈ availDict env args →
       optionOptimize env opt (sampleSizeForPot env.baselineTime) = .error er →
       ∃ e, (m, e) ∈ res ∧ e.status = "fail to convert") ∧
    (∀ (env : Env) (args : OptimizeArgs) (res : List (String × Entry)),
       optimize env args = .ok res →
       res.map Prod.fst = (availDict env args).map (fun x => x.1)) ∧
    (∀ (env : Env) (args : OptimizeArgs) (le : LoopErr),
       optimize env args = .error (.propagated le) →
       ∃ mdl, env.accuracy mdl = .error le.msg) := by
  refine ⟨?_, ?_, ?_⟩
  · intro env args res m opt er hopt hmem hconv
    have hP : ∀ c c' e,
        processMethod env args.latency_sample_num (sampleSizeForPot env.baselineTime)
          c m opt true = .ok (e, c') → e.status = "fail to convert" := by
      intro c c' e hpe
      rw [processMethod_convert_error hconv] at hpe
      cases hpe
      rfl
    exact runLoop_mem_entry hP hmem (optimize_ok_runLoop hopt)
  · intro env args res hopt
    exact runLoop_keys (optimize_ok_runLoop hopt)
  · intro env args le hopt
    exact runLoop_error_accuracy (optimize_propagated hopt)

/-- Witness for C1 at a concrete input: with every `trace` call failing,
`optimize` still returns, `"openvino_fp32"` is marked `"fail to convert"`,
the result covers all seven methods, and the propagated-error conjunct is
instantiated on a run whose accuracy helper raises. -/
theorem optimize_conversion_fallback_witness :
    (∃ e, ("openvino_fp32", e) ∈ resTraceBoom ∧ e.status = "fail to convert") ∧
    resTraceBoom.map Prod.fst = (availDict envTraceBoom {}).map (fun x => x.1) := by
  constructor
  · exact optimize_conversion_fallback.1 envTraceBoom {} resTraceBoom
      "openvino_fp32" { openvino := true } "onnx missing"
      rfl (by decide) rfl
  · exact optimize_conversion_fallback.2.1 envTraceBoom {} resTraceBoom rfl

/-- C2: after `optimize` returns, `optimized_model_dict` has exactly one
entry per method of the available-method dictionary, every status is one of
the five strings, and an entry holds a model only when its status is
`"successful"`. -/
theorem optimize_result_invariants (env : Env) (args : OptimizeArgs)
    (res : List (String × Entry)) (h : optimize env args = .ok res) :
    res.map Prod.fst = (availDict env args).map (fun x => x.1) ∧
    (res.map Prod.fst).Nodup ∧
    ∀ m e, (m, e) ∈ res →
      (e.status = "lack dependency" ∨ e.status = "fail to convert" ∨
       e.status = "successful" ∨ e.status = "early stopped" ∨
       e.status = "fail to forward") ∧
      (e.model.isSome → e.status = "successful") := by
  have hrl := optimize_ok_runLoop h
  refine ⟨runLoop_keys hrl, ?_, ?_⟩
  · rw [runLoop_keys hrl, availDict_keys]
    exact List.Nodup.filter _
      (by decide : (ALL_INFERENCE_ACCELERATION_METHOD.map Prod.fst).Nodup)
  · intro m e hme
    obtain ⟨opt, avail, cx, c', _, hpm⟩ := runLoop_origin hrl m e hme
    exact processMethod_ok_cases hpm

/-- Witness for C2 at a concrete input. -/
theorem optimize_result_invariants_witness :
    resAllOk.map Prod.fst = (availDict envAllOk {}).map (fun x => x.1) ∧
    (resAllOk.map Prod.fst).Nodup ∧
    ∀ m e, (m, e) ∈ resAllOk →
      (e.status = "lack dependency" ∨ e.status = "fail to convert" ∨
       e.status = "successful" ∨ e.status = "early stopped" ∨
       e.status = "fail to forward") ∧
      (e.model.isSome → e.status = "successful") :=
  optimize_result_invariants envAllOk {} resAllOk rfl

/-- C3: `Estimator.from_keras` dispatches on the `backend` string: `"tf2"`
and `"horovod"` yield a `TensorFlow2Estimator`, `"spark"` yields a
`SparkTFEstimator`, and every other string raises a `ValueError`. -/
theorem from_keras_dispatch (b : String) :
    ((b = "tf2" ∨ b = "horovod") → from_keras b = .ok (.tensorflow2 b)) ∧
    (b = "spark" → from_keras b = .ok .sparkTF) ∧
    (b ≠ "tf2" → b ≠ "horovod" → b ≠ "spark" →
      from_keras b = .error ("Only horovod, tf2 and spark backends are supported" ++
        " for now, got backend: " ++ b)) := by
  refine ⟨?_, ?_, ?_⟩
  · intro h
    rcases h with h | h <;> subst h <;> rfl
  · intro h
    subst h
    rfl
  · intro h1 h2 h3
    unfold from_keras
    rw [if_neg (by simp [h1, h2]), if_neg h3]

/-- Witness for C3 at concrete backend strings. -/
theorem from_keras_dispatch_witness :
    from_keras "horovod" = .ok (.tensorflow2 "horovod") ∧
    from_keras "spark" = .ok .sparkTF ∧
    from_keras "ray" = .error ("Only horovod, tf2 and spark backends are supported" ++
      " for now, got backend: " ++ "ray") :=
  ⟨(from_keras_dispatch "horovod").1 (Or.inr rfl),
   (from_keras_dispatch "spark").2.1 rfl,
   (from_keras_dispatch "ray").2.2 (by decide) (by decide) (by decide)⟩

/-- C4: for every method whose conversion succeeds, the latency helper is
called with `latency_sample_num` repetitions on the converted model, and the
latency it returns is stored in that method's entry; the argument's default
value is 100. -/
theorem optimize_latency_measured :
    (∀ (env : Env) (args : OptimizeArgs) (res : List (String × Entry))
       (m : String) (opt : AccelerationOption) (am : ModelRef) (lat : ℚ) (flag : Bool),
       optimize env args = .ok res →
       (m, opt, true) ∈ availDict env args →
       optionOptimize env opt (sampleSizeForPot env.baselineTime) = .ok am →
       env.throughput args.latency_sample_num am = .ok (lat, flag) →
       ∃ e, (m, e) ∈ res ∧ e.latency = some lat) ∧
    ({} : OptimizeArgs).latency_sample_num = 100 := by
  refine ⟨?_, rfl⟩
  intro env args res m opt am lat flag hopt hmem hconv hthr
  have hP : ∀ c c' e,
      processMethod env args.latency_sample_num (sampleSizeForPot env.baselineTime)
        c m opt true = .ok (e, c') → e.latency = some lat := by
    intro c c' e hpe
    exact processMethod_latency hconv hthr hpe
  exact runLoop_mem_entry hP hmem (optimize_ok_runLoop hopt)

/-- Witness for C4 at a concrete input: the stored latency is the helper's
value at 100 repetitions. -/
theorem optimize_latency_measured_witness :
    ∃ e, ("int8", e) ∈ resAllOk ∧ e.latency = some 2 :=
  optimize_latency_measured.1 envAllOk {} resAllOk "int8" { inc := true } 9 2 true
    rfl (by decide) rfl rfl

/-- C6: the candidate methods are attempted sequentially in the registration
order of `ALL_INFERENCE_ACCELERATION_METHOD` — "original", "int8",
"openvino_fp32", "openvino_int8", "onnxruntime_fp32",
"onnxruntime_int8_qlinear", "onnxruntime_int8_integer" — restricted to the
methods selected by `includes` / `excludes`. -/
theorem optimize_method_order :
    ALL_INFERENCE_ACCELERATION_METHOD.map Prod.fst =
      ["original", "int8", "openvino_fp32", "openvino_int8", "onnxruntime_fp32",
       "onnxruntime_int8_qlinear", "onnxruntime_int8_integer"] ∧
    (∀ (env : Env) (args : OptimizeArgs) (res : List (String × Entry)),
      optimize env args = .ok res →
      res.map Prod.fst =
        (ALL_INFERENCE_ACCELERATION_METHOD.map Prod.fst).filter
          (selectedMethod args.includes args.excludes)) := by
  refine ⟨rfl, ?_⟩
  intro env args res h
  rw [runLoop_keys (optimize_ok_runLoop h), availDict_keys]

/-- Witness for C6 at a concrete input (no includes/excludes: all seven
methods, in registration order). -/
theorem optimize_method_order_witness :
    resAllOk.map Prod.fst =
      (ALL_INFERENCE_ACCELERATION_METHOD.map Prod.fst).filter
        (selectedMethod ({} : OptimizeArgs).includes ({} : OptimizeArgs).excludes) :=
  optimize_method_order.2 envAllOk {} resAllOk rfl

/-- C8: `optimize` validates its arguments before attempting any method
(the error is returned no matter how the external oracles behave): a
non-Keras model, a direction other than "min"/"max", or a missing `y` with
non-Dataset `x` each raise `invalidInputError` with no result recorded. -/
theorem optimize_argument_validation (env : Env) (args : OptimizeArgs) :
    (args.modelIsKeras = false →
      optimize env args = .error (.invalidInput "model should be a Keras Model.")) ∧
    (args.modelIsKeras = true → args.direction ≠ "min" → args.direction ≠ "max" →
      optimize env args = .error (.invalidInput "Only support direction 'min', 'max'.")) ∧
    (args.modelIsKeras = true → (args.direction = "min" ∨ args.direction = "max") →
      args.yProvided = false → args.xIsDataset = false →
      optimize env args = .error (.invalidInput "y can be omitted only when x is a Dataset")) := by
  refine ⟨?_, ?_, ?_⟩
  · intro h1
    simp [optimize, h1]
  · intro h1 h2 h3
    simp [optimize, h1, h2, h3]
  · intro h1 h2 h3 h4
    simp [optimize, h1, h2, h3, h4]

/-- Witness for C8 at concrete inputs: each of the three validation errors,
produced before any method is attempted. -/
theorem optimize_argument_validation_witness :
    optimize envAllOk { modelIsKeras := false } =
      .error (.invalidInput "model should be a Keras Model.") ∧
    optimize envAllOk { direction := "avg" } =
      .error (.invalidInput "Only support direction 'min', 'max'.") ∧
    optimize envAllOk { yProvided := false } =
      .error (.invalidInput "y can be omitted only when x is a Dataset") :=
  ⟨(optimize_argument_validation envAllOk _).1 rfl,
   (optimize_argument_validation envAllOk _).2.1 rfl (by decide) (by decide),
   (optimize_argument_validation envAllOk _).2.2 rfl (Or.inr rfl) rfl rfl⟩

/-- C9: the POT calibration sample size is chosen from the baseline forward
time — over 0.1 s gives 15 samples, otherwise 100 — the chosen size is the
one passed to the OpenVINO quantization call, and `optimize` raises
`invalidInputError` when the baseline forward pass itself fails. -/
theorem optimize_pot_sample_size :
    (∀ t : ℚ, (t > 1 / 10 → sampleSizeForPot t = 15) ∧
      (t ≤ 1 / 10 → sampleSizeForPot t = 100)) ∧
    (∀ (env : Env) (args : OptimizeArgs),
      args.modelIsKeras = true → (args.direction = "min" ∨ args.direction = "max") →
      (args.yProvided = true ∨ args.xIsDataset = true) → env.forwardOk = false →
      optimize env args = .error (.invalidInput "x is incompatible with your model input.")) ∧
    (∀ (env : Env) (args : OptimizeArgs) (res : List (String × Entry)) (mq : ModelRef) (lat : ℚ),
      optimize env args = .ok res →
      ("openvino_int8", { openvino := true, pot := true }, true) ∈ availDict env args →
      env.quantize (some "openvino") none (sampleSizeForPot env.baselineTime) = .ok mq →
      env.throughput args.latency_sample_num mq = .ok (lat, true) →
      ∃ e, ("openvino_int8", e) ∈ res ∧ e.status = "successful" ∧ e.model = some mq) := by
  refine ⟨?_, ?_, ?_⟩
  · intro t
    constructor
    · intro h
      rw [sampleSizeForPot, if_pos h]
    · intro h
      rw [sampleSizeForPot, if_neg (not_lt.mpr h)]
  · intro env args h1 h2 h3 h4
    simp [optimize, h1, h2, h3, h4]
  · intro env args res mq lat hopt hmem hq hthr
    have hP : ∀ c c' e,
        processMethod env args.latency_sample_num (sampleSizeForPot env.baselineTime)
          c "openvino_int8" ({ openvino := true, pot := true } : AccelerationOption) true =
          .ok (e, c') →
        e.status = "successful" ∧ e.model = some mq := by
      intro c c' e hpe
      have hconv : optionOptimize env { openvino := true, pot := true }
          (sampleSizeForPot env.baselineTime) = .ok mq := by
        rw [show optionOptimize env { openvino := true, pot := true }
            (sampleSizeForPot env.baselineTime) =
          env.quantize (some "openvino") none (sampleSizeForPot env.baselineTime) from rfl]
        exact hq
      have := processMethod_success hconv hthr (Or.inl rfl) hpe
      exact ⟨this.1, this.2.1⟩
    exact runLoop_mem_entry hP hmem (optimize_ok_runLoop hopt)

/-- Witness for C9 at concrete inputs: a slow baseline picks 15, a fast one
picks 100, a failed baseline forward raises, and the quantized OpenVINO
model built with the chosen sample size is recorded. -/
theorem optimize_pot_sample_size_witness :
    sampleSizeForPot (1 / 5) = 15 ∧
    sampleSizeForPot (1 / 20) = 100 ∧
    optimize envForwardBad {} =
      .error (.invalidInput "x is incompatible with your model input.") ∧
    (∃ e, ("openvino_int8", e) ∈ resAllOk ∧ e.status = "successful" ∧ e.model = some 9) :=
  ⟨(optimize_pot_sample_size.1 (1 / 5)).1 (by norm_num),
   (optimize_pot_sample_size.1 (1 / 20)).2 (by norm_num),
   optimize_pot_sample_size.2.1 envForwardBad {} rfl (Or.inr rfl) (Or.inl rfl) rfl,
   optimize_pot_sample_size.2.2 envAllOk {} resAllOk 9 2 rfl (by decide) rfl rfl⟩

/-- C10: the "original" method is never assigned "early stopped": if the
original model's latency measurement completes — whatever the helper's
early-stop flag — its status stays "successful" and its model and latency
are recorded.  ("original" is always selected, so only its dependency flag
is assumed.) -/
theorem optimize_original_never_early_stopped (env : Env) (args : OptimizeArgs)
    (res : List (String × Entry)) (lat : ℚ) (flag : Bool)
    (hdep : env.depOk "original" = true)
    (hthr : env.throughput args.latency_sample_num env.model = .ok (lat, flag))
    (h : optimize env args = .ok res) :
    ∃ e, ("original", e) ∈ res ∧ e.status = "successful" ∧
      e.model = some env.model ∧ e.latency = some lat := by
  have hmem := original_mem_availDict env args
  rw [hdep] at hmem
  have hP : ∀ c c' e,
      processMethod env args.latency_sample_num (sampleSizeForPot env.baselineTime)
        c "original" ({} : AccelerationOption) true = .ok (e, c') →
      e.status = "successful" ∧ e.model = some env.model ∧ e.latency = some lat := by
    intro c c' e hpe
    have hconv : optionOptimize env ({} : AccelerationOption)
        (sampleSizeForPot env.baselineTime) = .ok env.model := by rfl
    exact processMethod_success hconv hthr (Or.inr rfl) hpe
  exact runLoop_mem_entry hP hmem (optimize_ok_runLoop h)

/-- Witness for C10 at a concrete input where the helper reports the
early-stop flag (`False`) for every model: "original" is still
"successful" with its model recorded, while the other methods are
"early stopped". -/
theorem optimize_original_never_early_stopped_witness :
    (∃ e, ("original", e) ∈ resEarly ∧ e.status = "successful" ∧
      e.model = some envEarly.model ∧ e.latency = some 2) ∧
    ("int8", { status := "early stopped", latency := some 2 }) ∈ resEarly :=
  ⟨optimize_original_never_early_stopped envEarly {} resEarly 2 false rfl rfl rfl,
   by decide⟩

/-- The result map `optimize envAccBoom argsWithMetric` produces: the
accuracy helper raises on `"original"`, so accuracy calculation is disabled
and later successful methods (including fp32 ones) get accuracy `None`. -/
def resAccBoomVM : List (String × Entry) :=
  [("original", { status := "successful", latency := some 2, model := some 7 }),
   ("int8", { status := "successful", latency := some 2,
              accuracy := some .noneVal, model := some 9 }),
   ("openvino_fp32", { status := "successful", latency := some 2,
                       accuracy := some .noneVal, model := some 8 }),
   ("openvino_int8", { status := "successful", latency := some 2,
                       accuracy := some .noneVal, model := some 9 }),
   ("onnxruntime_fp32", { status := "successful", latency := some 2,
                          accuracy := some .noneVal, model := some 8 }),
   ("onnxruntime_int8_qlinear", { status := "successful", latency := some 2,
                                  accuracy := some .noneVal, model := some 9 }),
   ("onnxruntime_int8_integer", { status := "successful", latency := some 2,
                                  accuracy := some .noneVal, model := some 9 })]

/-- C5 counterexample: with both `validation_data` and `metric` supplied, the
accuracy helper raising on the `"original"` method flips
`self._calculate_accuracy` to `False`, so the successful non-original fp32
method `"openvino_fp32"` ends with accuracy `None` — not `"not recomputed"`
as the claim states. -/
theorem optimize_accuracy_counterexample :
    argsWithMetric.validationDataProvided = true ∧
    argsWithMetric.metricProvided = true ∧
    optimize envAccBoom argsWithMetric = .ok resAccBoomVM ∧
    ("openvino_fp32", { status := "successful", latency := some 2,
                        accuracy := some AccVal.noneVal, model := some 8 }) ∈ resAccBoomVM ∧
    some AccVal.noneVal ≠ some AccVal.notRecomputed :=
  ⟨rfl, rfl, rfl, by decide, by decide⟩

/-- C5 as amended: accuracy is computed only when both `validation_data` and
`metric` are supplied; when either is absent every successful method's
accuracy is `None`; when both are supplied and the accuracy helper never
raises, the non-original fp32 methods ("openvino_fp32",
"onnxruntime_fp32") get `"not recomputed"` and every other successful
method gets the measured value.  (If the helper raises on `"original"`,
accuracy calculation is disabled for the rest of the run, as the
counterexample shows.) -/
theorem optimize_accuracy_amended (env : Env) (args : OptimizeArgs)
    (res : List (String × Entry)) (h : optimize env args = .ok res) :
    ((args.validationDataProvided = false ∨ args.metricProvided = false) →
      ∀ m e, (m, e) ∈ res → e.status = "successful" → e.accuracy = some .noneVal) ∧
    (args.validationDataProvided = true → args.metricProvided = true →
      (∀ mdl, (env.accuracy mdl).isOk) →
      ∀ m e, (m, e) ∈ res → e.status = "successful" →
        ((m = "openvino_fp32" ∨ m = "onnxruntime_fp32") →
          e.accuracy = some .notRecomputed) ∧
        (¬(m = "openvino_fp32" ∨ m = "onnxruntime_fp32") →
          ∃ a, e.accuracy = some (.value a))) := by
  constructor
  · intro hvm
    have hrl := optimize_ok_runLoop h
    have hc : (args.validationDataProvided && args.metricProvided) = false := by
      rcases hvm with hv | hm
      · rw [hv]; rfl
      · rw [hm]; simp
    rw [hc] at hrl
    exact runLoop_false_accuracy hrl
  · intro hv hm hacc m e hme hst
    have hrl := optimize_ok_runLoop h
    rw [hv, hm] at hrl
    obtain ⟨opt, avail, c', hmemA, hpm⟩ := runLoop_origin_const hacc hrl m e hme
    have hall := (mem_availDict hmemA).1
    simp [ALL_INFERENCE_ACCELERATION_METHOD] at hall
    have hts := processMethod_true_successful hacc hpm hst
    rcases hall with ⟨hm1, ho1⟩ | ⟨hm1, ho1⟩ | ⟨hm1, ho1⟩ | ⟨hm1, ho1⟩ |
      ⟨hm1, ho1⟩ | ⟨hm1, ho1⟩ | ⟨hm1, ho1⟩ <;> subst hm1 <;> subst ho1
    · exact ⟨fun hx => absurd hx (by decide), fun hcon => hts.2 (by decide)⟩
    · exact ⟨fun hx => absurd hx (by decide), fun hcon => hts.2 (by decide)⟩
    · exact ⟨fun hx => hts.1 (by decide), fun hcon => absurd (Or.inl rfl) hcon⟩
    · exact ⟨fun hx => absurd hx (by decide), fun hcon => hts.2 (by decide)⟩
    · exact ⟨fun hx => hts.1 (by decide), fun hcon => absurd (Or.inr rfl) hcon⟩
    · exact ⟨fun hx => absurd hx (by decide), fun hcon => hts.2 (by decide)⟩
    · exact ⟨fun hx => absurd hx (by decide), fun hcon => hts.2 (by decide)⟩

/-- Witness for the amended C5 at concrete inputs: with `validation_data`
and `metric` absent, a successful method's accuracy is `None`; with both
supplied and a healthy metric, `"openvino_fp32"` gets `"not recomputed"`. -/
theorem optimize_accuracy_amended_witness :
    (({ status := "successful", latency := some 2, accuracy := some AccVal.noneVal,
        model := some 9 } : Entry).accuracy = some AccVal.noneVal) ∧
    (({ status := "successful", latency := some 2, accuracy := some AccVal.notRecomputed,
        model := some 8 } : Entry).accuracy = some AccVal.notRecomputed) :=
  ⟨(optimize_accuracy_amended envAllOk {} resAllOk rfl).1 (Or.inl rfl) "int8"
      { status := "successful", latency := some 2, accuracy := some AccVal.noneVal,
        model := some 9 } (by decide) rfl,
   ((optimize_accuracy_amended envAllOk argsWithMetric resAllOkVM rfl).2 rfl rfl
      (fun _ => rfl) "openvino_fp32"
      { status := "successful", latency := some 2, accuracy := some AccVal.notRecomputed,
        model := some 8 } (by decide) rfl).1 (Or.inl rfl)⟩

/-- C7: the dataset readers produce collections in which every element is a
(features, label) `Sample` with labels starting at 1: `read_local` labels
each image with 1 plus the index of its parent directory in the sorted
directory listing (and the listing is really sorted), and `get_mnist` labels
each image with its mnist label plus 1. -/
theorem dataset_labels_start_at_one :
    (∀ l : List String, (sortStrings l).Sorted (· ≤ ·) ∧ List.Perm (sortStrings l) l) ∧
    (∀ (folder : List (String × List String)) (s : Sample (String × String)),
       s ∈ read_local folder (fun p => p) →
       s.label = indexOfStr s.features.1 (sortStrings (folder.map Prod.fst)) + 1 ∧
       1 ≤ s.label) ∧
    (∀ (α : Type) (images : List α) (labels : List Nat) (s : Sample α),
       s ∈ get_mnist images labels →
       1 ≤ s.label ∧ ∃ fl, fl ∈ images.zip labels ∧ s = ⟨fl.1, fl.2 + 1⟩) ∧
    (∀ (α : Type) (images : List α) (labels : List Nat) (fl : α × Nat),
       fl ∈ images.zip labels →
       (⟨fl.1, fl.2 + 1⟩ : Sample α) ∈ get_mnist images labels) := by
  refine ⟨?_, ?_, ?_, ?_⟩
  · intro l
    exact ⟨List.sorted_insertionSort _ l, List.perm_insertionSort _ l⟩
  · intro folder s hs
    unfold read_local at hs
    rw [List.mem_map] at hs
    obtain ⟨pl, hpl, heq⟩ := hs
    rw [List.mem_flatMap] at hpl
    obtain ⟨d, hd, hpl2⟩ := hpl
    rw [List.mem_map] at hpl2
    obtain ⟨f, hf, heq2⟩ := hpl2
    subst heq2
    subst heq
    exact ⟨rfl, Nat.succ_le_succ (Nat.zero_le _)⟩
  · intro α images labels s hs
    unfold get_mnist at hs
    rw [List.mem_map] at hs
    obtain ⟨fl, hfl, heq⟩ := hs
    subst heq
    exact ⟨Nat.succ_le_succ (Nat.zero_le _), fl, hfl, rfl⟩
  · intro α images labels fl hfl
    unfold get_mnist
    rw [List.mem_map]
    exact ⟨fl, hfl, rfl⟩

/-- Witness for C7 at concrete inputs: the sorted listing of `["b", "a"]`,
an imagenet sample from a one-directory folder (label 1), and an mnist
sample with raw label 0 mapped to 1. -/
theorem dataset_labels_start_at_one_witness :
    ((sortStrings ["b", "a"]).Sorted (· ≤ ·) ∧
     List.Perm (sortStrings ["b", "a"]) ["b", "a"]) ∧
    ((⟨("a", "z.jpg"), 1⟩ : Sample (String × String)).label =
       indexOfStr (("a", "z.jpg") : String × String).1
         (sortStrings ([("a", ["y.jpg", "z.jpg"])].map Prod.fst)) + 1 ∧
     1 ≤ (⟨("a", "z.jpg"), 1⟩ : Sample (String × String)).label) ∧
    (1 ≤ (⟨10, 1⟩ : Sample Nat).label ∧
     ∃ fl, fl ∈ [10, 20].zip [0, 5] ∧ (⟨10, 1⟩ : Sample Nat) = ⟨fl.1, fl.2 + 1⟩) :=
  ⟨dataset_labels_start_at_one.1 ["b", "a"],
   dataset_labels_start_at_one.2.1 [("a", ["y.jpg", "z.jpg"])]
     ⟨("a", "z.jpg"), 1⟩ (by decide),
   dataset_labels_start_at_one.2.2.1 Nat [10, 20] [0, 5] ⟨10, 1⟩ (by decide)⟩

end BigDL
